import Mathlib

/-! Verification development for the agentic data-sanitizer pipeline
(`src/app.py`).  Strings are modelled as `List Char`; the regular
expression `"```python\n(.*?)\n```"` (compiled with `re.DOTALL`) is
modelled by an explicit leftmost/lazy scanning function; Python
exceptions are modelled with `Except`; the external collaborators
(model call, sandbox upload/execute, CSV schema read) are oracle
parameters. -/

namespace App

/-- Characters of the opening fence of the compiled pattern (line 23 of
`src/app.py`): the literal text before the capture group. -/
def openTag : List Char := "```python\n".data

/-- Characters of the closing fence of the pattern: the literal text after
the capture group. -/
def closeTag : List Char := "\n```".data

/-- Index of the first (leftmost) occurrence of `needle` as a contiguous
block inside the haystack, if any.  This models both Python's `in`
operator on strings and the scanning order of `re` matching. -/
def firstOccur (needle : List Char) : List Char → Option Nat
  | [] => none
  | c :: cs =>
    if needle <+: (c :: cs) then some 0
    else (firstOccur needle cs).map (fun i => i + 1)

/-- Python's `needle in hay` for strings (with a nonempty needle). -/
def containsSub (needle hay : List Char) : Bool := (firstOccur needle hay).isSome

/-- Helper for `findFirst`: re-attach the character skipped by one scanning
step to the prefix component of a located match. -/
def skipChar (c : Char) :
    Option (List Char × List Char × List Char) →
      Option (List Char × List Char × List Char)
  | none => none
  | some (pre, body, post) => some (c :: pre, body, post)

/-- The leftmost, lazy match of the compiled pattern, exactly as Python's
`pattern.search` finds it: scan positions left to right; at the first
position where the opening fence matches and a closing fence occurs
later, take the shortest body (the lazy `(.*?)`).  Returns
`(text before the match, capture group, text after the match)`. -/
def findFirst : List Char → Option (List Char × List Char × List Char)
  | [] => none
  | c :: cs =>
    if openTag <+: (c :: cs) then
      match firstOccur closeTag ((c :: cs).drop openTag.length) with
      | some b =>
          some ([], ((c :: cs).drop openTag.length).take b,
            ((c :: cs).drop openTag.length).drop (b + closeTag.length))
      | none => skipChar c (findFirst cs)
    else skipChar c (findFirst cs)

/-- `match_code_blocks` of `src/app.py` (lines 37-42): the capture group of
the first match of the pattern, or the empty string when there is none. -/
def match_code_blocks (llm_response : List Char) : List Char :=
  match findFirst llm_response with
  | some t => t.2.1
  | none => []

/-- Fuel-driven core of `pattern.sub("", s)`: repeatedly delete the
leftmost match and continue scanning after it (Python replaces every
non-overlapping match, left to right).  Each deletion removes at least
the two fences, so `s.length` steps of fuel always suffice. -/
def subAllAux : Nat → List Char → List Char
  | 0, s => s
  | fuel + 1, s =>
    match findFirst s with
    | none => s
    | some (pre, _, post) => pre ++ subAllAux fuel post

/-- `pattern.sub("", s)`: the input with every matched fenced region
deleted. -/
def subAll (s : List Char) : List Char := subAllAux s.length s

/-- The ASCII whitespace recognised by Python's `str.strip()`. -/
def pyIsSpace (c : Char) : Bool :=
  c = ' ' || c = '\t' || c = '\n' || c = '\r' || c = '\x0b' || c = '\x0c'

/-- Python's `s.strip()`: drop leading and trailing whitespace. -/
def pyStrip (s : List Char) : List Char :=
  ((s.dropWhile pyIsSpace).reverse.dropWhile pyIsSpace).reverse

/-- `text_report` of `src/app.py` (line 280): the narrative shown to the
user, `pattern.sub("", llm_response).strip()`. -/
def text_report (llm_response : List Char) : List Char := pyStrip (subAll llm_response)

/-- Fuel-driven core of Python's `s.split(sep)` for a nonempty separator:
cut at each leftmost occurrence and continue after it. -/
def pySplitAux : Nat → List Char → List Char → List (List Char)
  | 0, _, s => [s]
  | fuel + 1, sep, s =>
    match firstOccur sep s with
    | none => [s]
    | some i => s.take i :: pySplitAux fuel sep (s.drop (i + sep.length))

/-- Python's `s.split(sep)` (the separators used here are nonempty, so the
fuel `s.length + 1` always suffices). -/
def pySplit (sep s : List Char) : List (List Char) := pySplitAux (s.length + 1) sep s

/-- The label searched for in the execution stdout (lines 291-293). -/
def hsLabel : List Char := "Health Score:".data

/-- The percent sign terminating the health-score figure. -/
def pctSign : List Char := "%".data

/-- The health-score extraction of `src/app.py` (lines 291-296): when the
stdout contains the label, the metric is
`code_stdout.split("Health Score:")[1].split("%")[0].strip()`; otherwise
no metric is shown.  The guarding `in` check makes the `[1]` index safe,
so the `Option.getD` defaults are never reached under the guard. -/
def healthScoreMetric (code_stdout : List Char) : Option (List Char) :=
  if containsSub hsLabel code_stdout then
    some (pyStrip ((pySplit pctSign ((pySplit hsLabel code_stdout).getD 1 [])).getD 0 []))
  else none

/-- One execution artifact returned by the sandbox, as the classifier at
lines 302-309 observes it: `png = none` models an object without a `png`
attribute, `png = some v` one whose `png` attribute holds the string `v`
(a present-but-`None` attribute behaves like `some ""`, falsy either
way); `hasFigure` models `hasattr(result, 'figure')` (no truthiness test
in the source); `isTabular` models
`isinstance(result, (pd.DataFrame, pd.Series))`. -/
structure Artifact where
  png : Option (List Char)
  hasFigure : Bool
  isTabular : Bool
deriving DecidableEq

/-- The presentation channel an artifact is routed to. -/
inductive Classified where
  | Image : List Char → Classified
  | PlotFigure : Classified
  | TabularData : Classified
  | Unclassified : Classified
deriving DecidableEq

/-- The condition `hasattr(result, 'png') and result.png` of line 303:
the attribute is present and its value is truthy (a nonempty string). -/
def pngTruthy (a : Artifact) : Bool :=
  match a.png with
  | some v => !v.isEmpty
  | none => false

/-- The artifact classifier of `src/app.py` lines 302-309: probe the
image capability, then the figure capability, then the tabular
capability; an artifact matching none of the probes gets no presentation
(the loop body simply does nothing for it). -/
def classify (a : Artifact) : Classified :=
  if pngTruthy a then Classified.Image (a.png.getD [])
  else if a.hasFigure then Classified.PlotFigure
  else if a.isTabular then Classified.TabularData
  else Classified.Unclassified

/-- What `sandbox.run_code` produces: the artifact list and the stdout and
stderr line lists of `exec.logs`. -/
structure ExecOutcome where
  results : List Artifact
  stdout : List (List Char)
  stderr : List (List Char)

/-- `"\n".join(lines)`. -/
def joinLines (lines : List (List Char)) : List Char :=
  List.intercalate ("\n".data) lines

/-- `code_interpret` of `src/app.py` (lines 25-35): return the artifact
list and the stdout lines joined with newlines (stderr is only logged). -/
def code_interpret (outcome : ExecOutcome) : List Artifact × List Char :=
  (outcome.results, joinLines outcome.stdout)

/-- The schema probe of `src/app.py` lines 46-50: the column list of a
two-row sample of the dataset, with any read failure degraded to the
empty column list by the bare `except`. -/
def read_columns (schemaRead : Except Unit (List (List Char))) : List (List Char) :=
  match schemaRead with
  | Except.ok cols => cols
  | Except.error _ => []

/-- Python's `repr` of a string in the common case (single quotes). -/
def pyReprStr (s : List Char) : List Char :=
  Char.ofNat 39 :: (s ++ [Char.ofNat 39])

/-- Python's `repr` of a list of strings, as an f-string interpolates it. -/
def pyReprStrList (l : List (List Char)) : List Char :=
  '[' :: (List.intercalate (", ".data) (l.map pyReprStr) ++ [']'])

/-- The system prompt f-string of `src/app.py` lines 52-61, with the two
interpolations `{dataset_path}` and `{columns_list}` spliced in. -/
def buildPrompt (dataset_path : List Char) (columns_list : List (List Char)) : List Char :=
  ("You are a Senior AI Data Scientist. Follow the 'Agentic Pipeline':\n1. VALIDATION | 2. PREPROCESSING | 3. ANOMALY DETECTION | 4. VISUALIZATION\n\nIMPORTANT:\n- Dataset location: '").data
    ++ dataset_path
    ++ ("'\n- Actual Columns: ").data
    ++ pyReprStrList columns_list
    ++ ("\n- First, write a brief human-readable plan in your response.\n- Then, write a Python code block using ```python...```.\n- Inside the code, use `print()` for the 'Data Health Report' and 'Cleaning Log'.\n- Ensure you use the correct column names from the provided list: ").data
    ++ pyReprStrList columns_list
    ++ (".").data

/-- The user-visible notification emitted by `chat_with_llm`: the
quota-exceeded `st.error` (line 86), the generic `st.error` (line 88), or
the no-code `st.warning` (line 82). -/
inductive ChatMsg where
  | quotaError : ChatMsg
  | genericError : List Char → ChatMsg
  | noCodeWarning : ChatMsg
deriving DecidableEq

/-- The observable outcome of one `chat_with_llm` call: the returned
triple `(code_results, response_text, code_stdout)` plus which
notification was shown and whether the sandbox execution was invoked. -/
structure ChatRet where
  results : Option (List Artifact)
  responseText : List Char
  stdout : List Char
  message : Option ChatMsg
  executed : Bool
deriving DecidableEq

/-- The first rate-limit marker searched for at line 85. -/
def quotaStr1 : List Char := "429".data

/-- The second rate-limit marker searched for at line 85. -/
def quotaStr2 : List Char := "ResourceExhausted".data

/-- The `except` clause of `chat_with_llm` (lines 84-88): a caught
exception whose text contains `"429"` or `"ResourceExhausted"` produces
the quota-exceeded message, any other one the generic message. -/
def errorReport (e : List Char) : ChatMsg :=
  if containsSub quotaStr1 e || containsSub quotaStr2 e then ChatMsg.quotaError
  else ChatMsg.genericError e

/-- `chat_with_llm` of `src/app.py` (lines 44-89).  `schemaRead` is the
outcome of `pd.read_csv(dataset_path, nrows=2)`, `modelCall` the Gemini
call as a function of (system prompt, user message), `runCode` the
sandbox execution of a code string; each may raise, modelled by
`Except.error` carrying `str(e)`.  The `try` block spans both the model
call and the execution, so an exception from either lands in the same
handler and yields the `(None, "", "")` return of line 89. -/
def chat_with_llm (schemaRead : Except Unit (List (List Char)))
    (modelCall : List Char → List Char → Except (List Char) (List Char))
    (runCode : List Char → Except (List Char) ExecOutcome)
    (user_message dataset_path : List Char) : ChatRet :=
  let columns_list := read_columns schemaRead
  let system_prompt := buildPrompt dataset_path columns_list
  match modelCall system_prompt user_message with
  | Except.error e =>
      { results := none, responseText := [], stdout := [],
        message := some (errorReport e), executed := false }
  | Except.ok response_text =>
      let python_code := match_code_blocks response_text
      if python_code.isEmpty then
        { results := none, responseText := response_text, stdout := [],
          message := some ChatMsg.noCodeWarning, executed := false }
      else
        match runCode python_code with
        | Except.ok outcome =>
            { results := some (code_interpret outcome).1,
              responseText := response_text,
              stdout := (code_interpret outcome).2,
              message := none, executed := true }
        | Except.error e =>
            { results := none, responseText := [], stdout := [],
              message := some (errorReport e), executed := true }

/-- `upload_dataset` of `src/app.py` (lines 91-99): on a successful write
the sandbox path `"./" + name` is returned; a write failure is reported
and then re-raised, so it propagates to the caller. -/
def upload_dataset (writeRes : Except (List Char) Unit) (fileName : List Char) :
    Except (List Char) (List Char) :=
  match writeRes with
  | Except.ok _ => Except.ok ("./".data ++ fileName)
  | Except.error e => Except.error e

/-- Lifecycle events of one sandbox session. -/
inductive SEvent where
  | acquire : SEvent
  | upload : SEvent
  | execute : SEvent
  | release : SEvent
deriving DecidableEq

/-- The `with Sandbox(...)` section of `main` (lines 272-315): acquire a
session, attempt the upload, on success run `chat_with_llm`, and — by the
context-manager semantics of `with`, which runs `__exit__` on normal and
on exceptional exit alike — release the session on every path.  An upload
failure re-raises out of the body (so no chat result is produced); an
execution failure is absorbed inside `chat_with_llm`.  Returns the event
trace and the chat result, if any. -/
def main_sandbox_section (writeRes : Except (List Char) Unit) (fileName : List Char)
    (schemaRead : Except Unit (List (List Char)))
    (modelCall : List Char → List Char → Except (List Char) (List Char))
    (runCode : List Char → Except (List Char) ExecOutcome)
    (query : List Char) : List SEvent × Option ChatRet :=
  match upload_dataset writeRes fileName with
  | Except.error _ => ([SEvent.acquire, SEvent.upload, SEvent.release], none)
  | Except.ok dataset_path =>
      let r := chat_with_llm schemaRead modelCall runCode query dataset_path
      (SEvent.acquire :: SEvent.upload ::
        ((if r.executed then [SEvent.execute] else []) ++ [SEvent.release]), some r)

/-- A match of the compiled pattern starting at position `p` with a body
of `b` characters: the opening fence reads at `p`, the closing fence at
`p + openTag.length + b`.  (`re.DOTALL` lets the lazy `(.*?)` cross
newlines, so the body is unconstrained.) -/
def matchesAt (s : List Char) (p b : Nat) : Prop :=
  openTag <+: s.drop p ∧ closeTag <+: s.drop (p + openTag.length + b)

/-- Modelled from the spec words for claim C1: the narrative as the input
with only the first matched fenced region deleted, then trimmed. -/
def removeFirstOnly (s : List Char) : List Char :=
  match findFirst s with
  | some t => pyStrip (t.1 ++ t.2.2)
  | none => pyStrip s

theorem openTag_ne_nil : openTag ≠ [] := by decide

theorem closeTag_ne_nil : closeTag ≠ [] := by decide

theorem openTag_len : openTag.length = 10 := by decide

theorem closeTag_len : closeTag.length = 4 := by decide

/-- Soundness of `firstOccur` at a hit: the needle reads at the returned
index and at no earlier one. -/
theorem firstOccur_eq_some {needle : List Char} :
    ∀ {s : List Char} {i : Nat}, firstOccur needle s = some i →
      needle <+: s.drop i ∧ ∀ j, j < i → ¬ needle <+: s.drop j := by
  intro s
  induction s with
  | nil => intro i h; simp [firstOccur] at h
  | cons c cs ih =>
    intro i h
    by_cases hp : needle <+: (c :: cs)
    · rw [firstOccur, if_pos hp] at h
      obtain rfl : (0 : Nat) = i := by simpa using h
      refine ⟨by simpa using hp, ?_⟩
      intro j hj
      exact absurd hj (Nat.not_lt_zero j)
    · rw [firstOccur, if_neg hp] at h
      rw [Option.map_eq_some'] at h
      obtain ⟨i', hi', rfl⟩ := h
      obtain ⟨h1, h2⟩ := ih hi'
      refine ⟨by simpa [List.drop_succ_cons] using h1, ?_⟩
      intro j hj
      cases j with
      | zero => simpa using hp
      | succ j' =>
        rw [List.drop_succ_cons]
        exact h2 j' (by omega)

/-- Soundness of `firstOccur` at a miss: a nonempty needle occurs
nowhere. -/
theorem firstOccur_eq_none {needle : List Char} (hn : needle ≠ []) :
    ∀ {s : List Char}, firstOccur needle s = none → ∀ i, ¬ needle <+: s.drop i := by
  intro s
  induction s with
  | nil =>
    intro _ i hpre
    exact hn (List.prefix_nil.mp (by simpa using hpre))
  | cons c cs ih =>
    intro h i
    by_cases hp : needle <+: (c :: cs)
    · rw [firstOccur, if_pos hp] at h
      simp at h
    · rw [firstOccur, if_neg hp] at h
      rw [Option.map_eq_none'] at h
      cases i with
      | zero => simpa using hp
      | succ i' =>
        rw [List.drop_succ_cons]
        exact ih h i'

/-- Shifting a match of the pattern across the head character. -/
theorem matchesAt_cons {c : Char} {cs : List Char} {q b : Nat} :
    matchesAt (c :: cs) (q + 1) b ↔ matchesAt cs q b := by
  unfold matchesAt
  have h2 : q + 1 + openTag.length + b = (q + openTag.length + b) + 1 := by omega
  rw [List.drop_succ_cons, h2, List.drop_succ_cons]

/-- A match of the pattern at position zero, phrased through iterated
drops. -/
theorem matchesAt_zero {s : List Char} {b : Nat} :
    matchesAt s 0 b ↔ (openTag <+: s ∧ closeTag <+: (s.drop openTag.length).drop b) := by
  unfold matchesAt
  rw [List.drop_zero, Nat.zero_add, List.drop_drop]

/-- A located match decomposes the input into the text before it, the two
fences around the captured body, and the text after it. -/
theorem findFirst_decomp :
    ∀ {s pre body post : List Char}, findFirst s = some (pre, body, post) →
      s = pre ++ openTag ++ body ++ closeTag ++ post := by
  intro s
  induction s with
  | nil => intro pre body post h; simp [findFirst] at h
  | cons c cs ih =>
    intro pre body post h
    rw [findFirst] at h
    by_cases hp : openTag <+: (c :: cs)
    · rw [if_pos hp] at h
      cases hb : firstOccur closeTag ((c :: cs).drop openTag.length) with
      | some b =>
        rw [hb] at h
        simp only [Option.some.injEq, Prod.mk.injEq] at h
        obtain ⟨h1, h2, h3⟩ := h
        subst h1; subst h2; subst h3
        obtain ⟨t, ht⟩ := hp
        have hu : (c :: cs).drop openTag.length = t := by
          rw [← ht, List.drop_left]
        obtain ⟨w, hw⟩ := (firstOccur_eq_some hb).1
        have hw2 : ((c :: cs).drop openTag.length).drop (b + closeTag.length) = w := by
          have hdd : (((c :: cs).drop openTag.length).drop b).drop closeTag.length =
              ((c :: cs).drop openTag.length).drop (b + closeTag.length) :=
            List.drop_drop ..
          rw [← hdd, ← hw, List.drop_left]
        rw [List.nil_append, hw2, List.append_assoc, hw, List.append_assoc,
          List.take_append_drop, hu, ht]
      | none =>
        rw [hb] at h
        cases hf : findFirst cs with
        | none => rw [hf] at h; simp [skipChar] at h
        | some t =>
          obtain ⟨pre', body', post'⟩ := t
          rw [hf] at h
          simp only [skipChar, Option.some.injEq, Prod.mk.injEq] at h
          obtain ⟨h1, h2, h3⟩ := h
          subst h1; subst h2; subst h3
          simp only [List.cons_append]
          rw [← ih hf]
    · rw [if_neg hp] at h
      cases hf : findFirst cs with
      | none => rw [hf] at h; simp [skipChar] at h
      | some t =>
        obtain ⟨pre', body', post'⟩ := t
        rw [hf] at h
        simp only [skipChar, Option.some.injEq, Prod.mk.injEq] at h
        obtain ⟨h1, h2, h3⟩ := h
        subst h1; subst h2; subst h3
        simp only [List.cons_append]
        rw [← ih hf]

/-- The match located by `findFirst` is a genuine match of the pattern. -/
theorem findFirst_matches {s pre body post : List Char}
    (h : findFirst s = some (pre, body, post)) :
    matchesAt s pre.length body.length := by
  have hd := findFirst_decomp h
  have e1 : s.drop pre.length = openTag ++ (body ++ (closeTag ++ post)) := by
    rw [hd]
    simp only [List.append_assoc]
    rw [List.drop_left]
  constructor
  · rw [e1]; exact List.prefix_append ..
  · have e2 : ((s.drop pre.length).drop openTag.length).drop body.length =
        s.drop (pre.length + openTag.length + body.length) := by
      rw [List.drop_drop, List.drop_drop, Nat.add_assoc]
    rw [← e2, e1, List.drop_left]
    rw [List.drop_left]
    exact List.prefix_append ..

/-- No position earlier than the one `findFirst` reports carries a match:
Python's `search` scans left to right. -/
theorem findFirst_leftmost :
    ∀ {s pre body post : List Char}, findFirst s = some (pre, body, post) →
      ∀ q b, matchesAt s q b → pre.length ≤ q := by
  intro s
  induction s with
  | nil => intro pre body post h; simp [findFirst] at h
  | cons c cs ih =>
    intro pre body post h q b hm
    rw [findFirst] at h
    by_cases hp : openTag <+: (c :: cs)
    · cases hb : firstOccur closeTag ((c :: cs).drop openTag.length) with
      | some b0 =>
        rw [if_pos hp, hb] at h
        simp only [Option.some.injEq, Prod.mk.injEq] at h
        obtain ⟨h1, _, _⟩ := h
        subst h1
        simp
      | none =>
        rw [if_pos hp, hb] at h
        cases hf : findFirst cs with
        | none => rw [hf] at h; simp [skipChar] at h
        | some t =>
          obtain ⟨pre', body', post'⟩ := t
          rw [hf] at h
          simp only [skipChar, Option.some.injEq, Prod.mk.injEq] at h
          obtain ⟨h1, _, _⟩ := h
          subst h1
          cases q with
          | zero =>
            exact absurd (matchesAt_zero.mp hm).2
              (firstOccur_eq_none closeTag_ne_nil hb b)
          | succ q' =>
            have := ih hf q' b (matchesAt_cons.mp hm)
            simp only [List.length_cons]
            omega
    · rw [if_neg hp] at h
      cases hf : findFirst cs with
      | none => rw [hf] at h; simp [skipChar] at h
      | some t =>
        obtain ⟨pre', body', post'⟩ := t
        rw [hf] at h
        simp only [skipChar, Option.some.injEq, Prod.mk.injEq] at h
        obtain ⟨h1, _, _⟩ := h
        subst h1
        cases q with
        | zero => exact absurd (matchesAt_zero.mp hm).1 hp
        | succ q' =>
          have := ih hf q' b (matchesAt_cons.mp hm)
          simp only [List.length_cons]
          omega

/-- At the position `findFirst` reports, it captures the shortest body of
any match there: the lazy `(.*?)`. -/
theorem findFirst_shortest :
    ∀ {s pre body post : List Char}, findFirst s = some (pre, body, post) →
      ∀ b, matchesAt s pre.length b → body.length ≤ b := by
  intro s
  induction s with
  | nil => intro pre body post h; simp [findFirst] at h
  | cons c cs ih =>
    intro pre body post h b hm
    rw [findFirst] at h
    by_cases hp : openTag <+: (c :: cs)
    · cases hb : firstOccur closeTag ((c :: cs).drop openTag.length) with
      | some b0 =>
        rw [if_pos hp, hb] at h
        simp only [Option.some.injEq, Prod.mk.injEq] at h
        obtain ⟨h1, h2, _⟩ := h
        subst h1; subst h2
        have hcl := (matchesAt_zero.mp hm).2
        have hb0 : b0 ≤ b := by
          by_contra hlt
          exact (firstOccur_eq_some hb).2 b (by omega) hcl
        calc (((c :: cs).drop openTag.length).take b0).length
            ≤ b0 := by simp [List.length_take]
          _ ≤ b := hb0
      | none =>
        rw [if_pos hp, hb] at h
        cases hf : findFirst cs with
        | none => rw [hf] at h; simp [skipChar] at h
        | some t =>
          obtain ⟨pre', body', post'⟩ := t
          rw [hf] at h
          simp only [skipChar, Option.some.injEq, Prod.mk.injEq] at h
          obtain ⟨h1, h2, _⟩ := h
          subst h1; subst h2
          rw [List.length_cons] at hm
          exact ih hf b (matchesAt_cons.mp hm)
    · rw [if_neg hp] at h
      cases hf : findFirst cs with
      | none => rw [hf] at h; simp [skipChar] at h
      | some t =>
        obtain ⟨pre', body', post'⟩ := t
        rw [hf] at h
        simp only [skipChar, Option.some.injEq, Prod.mk.injEq] at h
        obtain ⟨h1, h2, _⟩ := h
        subst h1; subst h2
        rw [List.length_cons] at hm
        exact ih hf b (matchesAt_cons.mp hm)

/-- When `findFirst` reports no match, the pattern matches nowhere. -/
theorem findFirst_none :
    ∀ {s : List Char}, findFirst s = none → ∀ q b, ¬ matchesAt s q b := by
  intro s
  induction s with
  | nil =>
    intro _ q b hm
    have h1 := hm.1
    rw [List.drop_nil] at h1
    exact openTag_ne_nil (List.prefix_nil.mp h1)
  | cons c cs ih =>
    intro h q b hm
    rw [findFirst] at h
    by_cases hp : openTag <+: (c :: cs)
    · cases hb : firstOccur closeTag ((c :: cs).drop openTag.length) with
      | some b0 => rw [if_pos hp, hb] at h; simp at h
      | none =>
        rw [if_pos hp, hb] at h
        cases q with
        | zero =>
          exact firstOccur_eq_none closeTag_ne_nil hb b (matchesAt_zero.mp hm).2
        | succ q' =>
          cases hf : findFirst cs with
          | none => exact ih hf q' b (matchesAt_cons.mp hm)
          | some t =>
            obtain ⟨a, b', c'⟩ := t
            rw [hf] at h
            simp [skipChar] at h
    · rw [if_neg hp] at h
      cases q with
      | zero => exact hp (matchesAt_zero.mp hm).1
      | succ q' =>
        cases hf : findFirst cs with
        | none => exact ih hf q' b (matchesAt_cons.mp hm)
        | some t =>
          obtain ⟨a, b', c'⟩ := t
          rw [hf] at h
          simp [skipChar] at h

/-- Any match anywhere forces `findFirst` to report one. -/
theorem findFirst_isSome_of_matchesAt {s : List Char} {p b : Nat} (h : matchesAt s p b) :
    ∃ pre body post, findFirst s = some (pre, body, post) := by
  cases hf : findFirst s with
  | none => exact absurd h (findFirst_none hf p b)
  | some t =>
    obtain ⟨pre, body, post⟩ := t
    exact ⟨pre, body, post, rfl⟩

/-- A match consumes at least the two fences, so the text after it is
strictly shorter than the input. -/
theorem findFirst_post_lt {s pre body post : List Char}
    (h : findFirst s = some (pre, body, post)) : post.length < s.length := by
  have hd := findFirst_decomp h
  have : s.length = pre.length + openTag.length + body.length + closeTag.length
      + post.length := by
    rw [hd]; simp [List.length_append]; omega
  rw [this, openTag_len, closeTag_len]
  omega

/-- Any two sufficient fuels drive `subAllAux` to the same result. -/
theorem subAllAux_fuel :
    ∀ (f1 : Nat) {s : List Char} (f2 : Nat), s.length ≤ f1 → s.length ≤ f2 →
      subAllAux f1 s = subAllAux f2 s := by
  intro f1
  induction f1 with
  | zero =>
    intro s f2 h1 _
    obtain rfl : s = [] := List.length_eq_zero.mp (Nat.le_zero.mp h1)
    cases f2 with
    | zero => rfl
    | succ f2' => simp [subAllAux, findFirst]
  | succ f ih =>
    intro s f2 h1 h2
    cases f2 with
    | zero =>
      obtain rfl : s = [] := List.length_eq_zero.mp (Nat.le_zero.mp h2)
      simp [subAllAux, findFirst]
    | succ f2' =>
      rw [subAllAux, subAllAux]
      cases hf : findFirst s with
      | none => rfl
      | some t =>
        obtain ⟨pre, body, post⟩ := t
        have hlt := findFirst_post_lt hf
        have heq := ih (s := post) f2' (by omega) (by omega)
        show pre ++ subAllAux f post = pre ++ subAllAux f2' post
        rw [heq]

/-- `pattern.sub` through the first match: delete it and continue on the
text after it. -/
theorem subAll_of_findFirst {s pre body post : List Char}
    (h : findFirst s = some (pre, body, post)) :
    subAll s = pre ++ subAll post := by
  unfold subAll
  cases hs : s.length with
  | zero =>
    obtain rfl : s = [] := List.length_eq_zero.mp hs
    simp [findFirst] at h
  | succ n =>
    rw [subAllAux, h]
    have hlt := findFirst_post_lt h
    show pre ++ subAllAux n post = pre ++ subAll post
    unfold subAll
    rw [subAllAux_fuel n (s := post) post.length (by omega) (by omega)]

/-- `pattern.sub` is the identity when the pattern never matches. -/
theorem subAll_of_none {s : List Char} (h : findFirst s = none) : subAll s = s := by
  unfold subAll
  cases hs : s.length with
  | zero => rfl
  | succ n => rw [subAllAux, h]

/-- C1: refuted on a two-block response.  The narrative built at line 280
uses `pattern.sub`, which deletes every matched fenced region, not only
the first: on `"A\n```python\nx\n```\nB\n```python\ny\n```\nC"` the
narrative differs from the spec-modelled first-deletion-only text, and
the second block (still present under first-only deletion) is gone from
the narrative the code produces. -/
theorem C1_counterexample :
    text_report ("A\n```python\nx\n```\nB\n```python\ny\n```\nC".data) ≠
      removeFirstOnly ("A\n```python\nx\n```\nB\n```python\ny\n```\nC".data) ∧
    containsSub openTag
      (removeFirstOnly ("A\n```python\nx\n```\nB\n```python\ny\n```\nC".data)) = true ∧
    containsSub openTag
      (text_report ("A\n```python\nx\n```\nB\n```python\ny\n```\nC".data)) = false := by
  refine ⟨by decide, by decide, by decide⟩

/-- C1 (amended): for every response with at least one fenced python
block, the narrative is the input with the first matched fenced region
deleted and the text after it processed the same way — so all later
matched regions are deleted as well — then trimmed of leading/trailing
whitespace. -/
theorem C1_narrative_removes_every_block (s pre body post : List Char)
    (h : findFirst s = some (pre, body, post)) :
    s = pre ++ openTag ++ body ++ closeTag ++ post ∧
    text_report s = pyStrip (pre ++ subAll post) := by
  refine ⟨findFirst_decomp h, ?_⟩
  unfold text_report
  rw [subAll_of_findFirst h]

/-- Witness for the amended C1 at the two-block response: the first
region is deleted and the remainder is recursively processed. -/
theorem C1_narrative_removes_every_block_witness :
    ("A\n```python\nx\n```\nB\n```python\ny\n```\nC".data) =
      ("A\n".data) ++ openTag ++ ("x".data) ++ closeTag ++
        ("\nB\n```python\ny\n```\nC".data) ∧
    text_report ("A\n```python\nx\n```\nB\n```python\ny\n```\nC".data) =
      pyStrip (("A\n".data) ++ subAll ("\nB\n```python\ny\n```\nC".data)) :=
  C1_narrative_removes_every_block _ ("A\n".data) ("x".data)
    ("\nB\n```python\ny\n```\nC".data) (by decide)

/-- C2: whenever the response contains a fenced python block anywhere,
`match_code_blocks` returns exactly the capture of the first match — the
text between the opening fence at the least matching position and the
nearest closing fence after it — never the contents of a later block. -/
theorem C2_extracts_first_block (s : List Char) (p b : Nat) (h : matchesAt s p b) :
    ∃ pre body post,
      findFirst s = some (pre, body, post) ∧
      match_code_blocks s = body ∧
      s = pre ++ openTag ++ body ++ closeTag ++ post ∧
      (∀ q c, matchesAt s q c → pre.length ≤ q) ∧
      (∀ c, matchesAt s pre.length c → body.length ≤ c) := by
  obtain ⟨pre, body, post, hf⟩ := findFirst_isSome_of_matchesAt h
  refine ⟨pre, body, post, hf, ?_, findFirst_decomp hf,
    findFirst_leftmost hf, findFirst_shortest hf⟩
  unfold match_code_blocks
  rw [hf]

/-- Witness for C2 at a two-block response: the extractor keeps the first
block's body. -/
theorem C2_extracts_first_block_witness :
    ∃ pre body post,
      findFirst ("A\n```python\nx\n```\nB\n```python\ny\n```\nC".data) =
        some (pre, body, post) ∧
      match_code_blocks ("A\n```python\nx\n```\nB\n```python\ny\n```\nC".data) = body ∧
      ("A\n```python\nx\n```\nB\n```python\ny\n```\nC".data) =
        pre ++ openTag ++ body ++ closeTag ++ post ∧
      (∀ q c, matchesAt ("A\n```python\nx\n```\nB\n```python\ny\n```\nC".data) q c →
        pre.length ≤ q) ∧
      (∀ c, matchesAt ("A\n```python\nx\n```\nB\n```python\ny\n```\nC".data)
        pre.length c → body.length ≤ c) :=
  C2_extracts_first_block _ 2 1 (by unfold matchesAt; decide)

/-- C3: the classifier probes the capabilities in the fixed order image,
then plot figure, then tabular data, else unclassified; in particular an
artifact exposing both the image and the tabular capability is classified
`Image` and never `TabularData`. -/
theorem C3_classification_priority (a : Artifact) :
    (pngTruthy a = true → classify a = Classified.Image (a.png.getD [])) ∧
    (pngTruthy a = false → a.hasFigure = true → classify a = Classified.PlotFigure) ∧
    (pngTruthy a = false → a.hasFigure = false → a.isTabular = true →
      classify a = Classified.TabularData) ∧
    (pngTruthy a = false → a.hasFigure = false → a.isTabular = false →
      classify a = Classified.Unclassified) ∧
    (pngTruthy a = true → a.isTabular = true → classify a ≠ Classified.TabularData) :=
  ⟨fun h1 => by simp [classify, h1],
   fun h1 h2 => by simp [classify, h1, h2],
   fun h1 h2 h3 => by simp [classify, h1, h2, h3],
   fun h1 h2 h3 => by simp [classify, h1, h2, h3],
   fun h1 _ => by simp [classify, h1]⟩

/-- C4: when the model call raises, `chat_with_llm` halts with the empty
triple and reports the distinct quota-exceeded condition exactly when the
exception text contains `"429"` or `"ResourceExhausted"`, and the generic
message otherwise; the two reports are never the same value, and the
sandbox execution is not attempted (no retry). -/
theorem C4_model_error_reporting (schemaRead : Except Unit (List (List Char)))
    (runCode : List Char → Except (List Char) ExecOutcome)
    (user_message dataset_path e : List Char) :
    chat_with_llm schemaRead (fun _ _ => Except.error e) runCode
        user_message dataset_path =
      { results := none, responseText := [], stdout := [],
        message := some (if containsSub quotaStr1 e || containsSub quotaStr2 e
          then ChatMsg.quotaError else ChatMsg.genericError e),
        executed := false } ∧
    (∀ msg, ChatMsg.quotaError ≠ ChatMsg.genericError msg) :=
  ⟨rfl, fun _ h => ChatMsg.noConfusion h⟩

/-- C5: across every exit path of the sandbox section — successful run,
upload failure, execution failure (the `runCode` oracle ranges over both)
— the acquired session is released exactly once, and the release is the
last session event. -/
theorem C5_release_exactly_once (writeRes : Except (List Char) Unit)
    (fileName : List Char) (schemaRead : Except Unit (List (List Char)))
    (modelCall : List Char → List Char → Except (List Char) (List Char))
    (runCode : List Char → Except (List Char) ExecOutcome) (query : List Char) :
    ((main_sandbox_section writeRes fileName schemaRead modelCall runCode
        query).1.count SEvent.release = 1) ∧
    ((main_sandbox_section writeRes fileName schemaRead modelCall runCode
        query).1.count SEvent.acquire = 1) ∧
    ((main_sandbox_section writeRes fileName schemaRead modelCall runCode
        query).1.getLast? = some SEvent.release) := by
  cases writeRes with
  | error e =>
    have hms : main_sandbox_section (Except.error e) fileName schemaRead modelCall
        runCode query = ([SEvent.acquire, SEvent.upload, SEvent.release], none) := rfl
    rw [hms]
    refine ⟨by decide, by decide, by decide⟩
  | ok u =>
    have hms : (main_sandbox_section (Except.ok u) fileName schemaRead modelCall
        runCode query).1 =
        SEvent.acquire :: SEvent.upload ::
          ((if (chat_with_llm schemaRead modelCall runCode query
              ("./".data ++ fileName)).executed then [SEvent.execute] else []) ++
            [SEvent.release]) := rfl
    rw [hms]
    cases hex : (chat_with_llm schemaRead modelCall runCode query
        ("./".data ++ fileName)).executed <;>
      refine ⟨by decide, by decide, by decide⟩

/-- C6: a schema-probe failure is never surfaced: the column list
degrades to the empty sequence and the whole call behaves exactly as it
does with an empty schema — the system prompt is still built and the
request continues. -/
theorem C6_schema_failure_degrades (modelCall : List Char → List Char →
      Except (List Char) (List Char))
    (runCode : List Char → Except (List Char) ExecOutcome)
    (user_message dataset_path : List Char) :
    read_columns (Except.error ()) = [] ∧
    chat_with_llm (Except.error ()) modelCall runCode user_message dataset_path =
      chat_with_llm (Except.ok []) modelCall runCode user_message dataset_path :=
  ⟨rfl, rfl⟩

/-- C7: a response with no fenced python block (however malformed) yields
the empty-string sentinel, a narrative equal to the whole trimmed input,
and a `chat_with_llm` outcome that skips execution (whatever the sandbox
oracle would do), returns the response text, and warns the user — never
an error. -/
theorem C7_no_block_skips_execution (s : List Char)
    (h : ∀ p b, ¬ matchesAt s p b) :
    match_code_blocks s = [] ∧
    text_report s = pyStrip s ∧
    ∀ (schemaRead : Except Unit (List (List Char)))
      (runCode : List Char → Except (List Char) ExecOutcome)
      (user_message dataset_path : List Char),
      chat_with_llm schemaRead (fun _ _ => Except.ok s) runCode
          user_message dataset_path =
        { results := none, responseText := s, stdout := [],
          message := some ChatMsg.noCodeWarning, executed := false } := by
  have hf : findFirst s = none := by
    cases hf : findFirst s with
    | none => rfl
    | some t =>
      obtain ⟨pre, body, post⟩ := t
      exact absurd (findFirst_matches hf) (h _ _)
  have hm : match_code_blocks s = [] := by
    unfold match_code_blocks
    rw [hf]
  refine ⟨hm, ?_, ?_⟩
  · unfold text_report
    rw [subAll_of_none hf]
  · intro sr rc u p
    simp [chat_with_llm, hm]

/-- Witness for C7 at a response with an unterminated fence. -/
theorem C7_no_block_skips_execution_witness :
    match_code_blocks ("No code here. ```python\nunterminated".data) = [] ∧
    text_report ("No code here. ```python\nunterminated".data) =
      pyStrip ("No code here. ```python\nunterminated".data) ∧
    chat_with_llm (Except.ok [])
        (fun _ _ => Except.ok ("No code here. ```python\nunterminated".data))
        (fun _ => Except.error []) [] [] =
      { results := none,
        responseText := ("No code here. ```python\nunterminated".data),
        stdout := [], message := some ChatMsg.noCodeWarning, executed := false } :=
  ⟨(C7_no_block_skips_execution _ (findFirst_none (by decide))).1,
   (C7_no_block_skips_execution _ (findFirst_none (by decide))).2.1,
   (C7_no_block_skips_execution _ (findFirst_none (by decide))).2.2
     (Except.ok []) (fun _ => Except.error []) [] []⟩

/-- C8: the spec scenario.  On the response
`"Plan: clean data.\n```python\nprint('Health Score: 87%')\n```"` the
extractor returns the print statement, the narrative is
`"Plan: clean data."`, the joined stdout of an execution printing the
score is `"Health Score: 87%"`, and the parsed health-score metric is
`87` (the text between the first `"Health Score:"` and the next `"%"`,
stripped). -/
theorem C8_scenario :
    match_code_blocks
        ("Plan: clean data.\n```python\nprint('Health Score: 87%')\n```".data) =
      ("print('Health Score: 87%')".data) ∧
    text_report
        ("Plan: clean data.\n```python\nprint('Health Score: 87%')\n```".data) =
      ("Plan: clean data.".data) ∧
    code_interpret
        { results := [], stdout := [("Health Score: 87%".data)], stderr := [] } =
      ([], ("Health Score: 87%".data)) ∧
    healthScoreMetric ("Health Score: 87%".data) = some ("87".data) := by
  refine ⟨by decide, by decide, by decide, by decide⟩

/-- C9: an artifact whose `png` attribute is present but falsy (the empty
string) is never classified as an image; it falls through to the figure
and tabular probes. -/
theorem C9_falsy_png_not_image (a : Artifact) (h : a.png = some []) :
    (∀ d, classify a ≠ Classified.Image d) ∧
    (a.hasFigure = true → classify a = Classified.PlotFigure) ∧
    (a.hasFigure = false → a.isTabular = true →
      classify a = Classified.TabularData) ∧
    (a.hasFigure = false → a.isTabular = false →
      classify a = Classified.Unclassified) := by
  have ht : pngTruthy a = false := by
    unfold pngTruthy
    rw [h]
    rfl
  refine ⟨fun d => ?_, fun h1 => by simp [classify, ht, h1],
    fun h1 h2 => by simp [classify, ht, h1, h2],
    fun h1 h2 => by simp [classify, ht, h1, h2]⟩
  cases h1 : a.hasFigure <;> cases h2 : a.isTabular <;>
    simp [classify, ht, h1, h2]

/-- Witness for C9: a falsy-png artifact with a figure capability is
routed to the figure channel, not the image one. -/
theorem C9_falsy_png_not_image_witness :
    (∀ d, classify { png := some [], hasFigure := true, isTabular := true } ≠
      Classified.Image d) ∧
    classify { png := some [], hasFigure := true, isTabular := true } =
      Classified.PlotFigure :=
  ⟨(C9_falsy_png_not_image _ rfl).1, (C9_falsy_png_not_image _ rfl).2.1 rfl⟩

/-- C10: a nonempty extraction only ever comes from a fence of the exact
form `opening fence ++ body ++ closing fence` embedded in the response
(so the language tag is exactly `python` followed by a newline and a
newline precedes the closing fence); a response in which the opening
fence never occurs yields the empty-string sentinel, and so do the
empty-body shapes `"```python\n```"` and `"```python\n\n```"`. -/
theorem C10_exact_fence_form (s : List Char) :
    (match_code_blocks s ≠ [] →
      ∃ pre post, s = pre ++ openTag ++ match_code_blocks s ++ closeTag ++ post) ∧
    ((∀ p, ¬ openTag <+: s.drop p) → match_code_blocks s = []) ∧
    match_code_blocks ("```python\n```".data) = [] ∧
    match_code_blocks ("```python\n\n```".data) = [] := by
  refine ⟨?_, ?_, by decide, by decide⟩
  · intro hne
    cases hf : findFirst s with
    | none =>
      exact absurd (by unfold match_code_blocks; rw [hf]) hne
    | some t =>
      obtain ⟨pre, body, post⟩ := t
      have hb : match_code_blocks s = body := by
        unfold match_code_blocks
        rw [hf]
      refine ⟨pre, post, ?_⟩
      rw [hb]
      exact findFirst_decomp hf
  · intro hno
    cases hf : findFirst s with
    | none =>
      unfold match_code_blocks
      rw [hf]
    | some t =>
      obtain ⟨pre, body, post⟩ := t
      exact absurd (findFirst_matches hf).1 (hno pre.length)

end App
